import Mathlib

/-!
Shallow embedding of the daily post-rotation and uniqueness tracker of the
AB repository, together with proofs of the behavioural properties stated in
its specification.

Two revisions of the tracker are embedded:

* `AurumVideo` — the class `VideoAutomation` of `automation-video/main.py`
  (state file `state.json`, fields `last_video_date`, `count_today`,
  `last_slno`, `used_services_today`, `used_videos`, `last_rotation`).
* `AurumDaily` — the module-level functions of
  `automation/generate_and_send_daily.py` (state file `state_daily.json`,
  fields `last_service_index`, `last_post_date`, `image_generated_today`,
  `video_generated_today`, `used_combinations`).  The function
  `choose_service_and_variant` of `automation/generate_zero_cost.py` is the
  same algorithm over different catalog constants, so the parameterised
  embedding below covers both files.

Modelling conventions:

* A Python JSON-dict state is a structure whose fields are `Option` values;
  `none` models a missing key, and `dict.get(k, d)` is `Option.getD`.
* Calendar-date strings produced by `strftime("%Y-%m-%d")` of the UTC+5:30
  local time are modelled by the local day number `istDate t` of the UTC
  timestamp `t` in seconds (the formatting is injective on days).  For
  `last_video_date`, `none` also models the default `""` value, which, like
  a missing key, differs from every real date string.
* `random.choice l` is modelled by `randomChoice l r` where `r` is an
  external random draw; on an empty list it is `none` (Python raises
  `IndexError`).  `random.shuffle` is modelled by an oracle function,
  constrained to produce permutations where a proof needs it.
* Fallible code returns `Option`; an uncaught Python exception is `none`.
* Filesystem writes are modelled as traces of `FsOp` operations.
-/

namespace Aurum

/-- Model of `random.choice l`: an element of `l` selected by an external
random draw `r`; `none` on an empty list (Python raises `IndexError`). -/
def randomChoice {α : Type} (l : List α) (r : Nat) : Option α :=
  l[r % l.length]?

end Aurum

namespace AurumVideo

open Aurum

/-- The JSON state dict of `automation-video/main.py` (see
`get_default_state`, main.py lines 60-69).  Each field is an `Option`:
`none` models the key being absent from the dict. -/
structure VState where
  last_video_date : Option Nat
  count_today : Option Int
  last_slno : Option Int
  used_services_today : Option (List String)
  used_videos : Option (List String)
  last_rotation : Option Int
deriving DecidableEq

/-- Default state structure (`get_default_state`, main.py lines 60-69).
The source value `"last_video_date": ""` is modelled by `none` (an empty
date string differs from every real date, exactly like a missing key). -/
def get_default_state : VState :=
  { last_video_date := none
    count_today := some 0
    last_slno := some 0
    used_services_today := some []
    used_videos := some []
    last_rotation := some 0 }

/-- The empty dict `{}` returned by `load_state` when the state file exists
but `json.load` raises (main.py lines 55-57). -/
def emptyStateDict : VState :=
  { last_video_date := none
    count_today := none
    last_slno := none
    used_services_today := none
    used_videos := none
    last_rotation := none }

/-- Condition of the persisted state file when `load_state` runs. -/
inductive FileStatus where
  | missing
  | corrupt
  | valid (s : VState)

/-- Embedding of `load_state` (main.py lines 49-58): a missing file yields
the default state; a file whose parse raises yields the empty dict `{}`;
otherwise the parsed state is returned. -/
def load_state : FileStatus → VState
  | .missing => get_default_state
  | .corrupt => emptyStateDict
  | .valid s => s

/-- Daily quota constant `DAILY_VIDEO_LIMIT` (config.py line 33). -/
def DAILY_VIDEO_LIMIT : Int := 3

/-- Local (UTC+5:30) day number of a UTC timestamp `t` in seconds, as
computed by `utcnow() + timedelta(hours=5, minutes=30)` (main.py lines
137-139): the IST offset is 19800 seconds and a day is 86400 seconds. -/
def istDate (t : Nat) : Nat := (t + 19800) / 86400

/-- Embedding of `check_daily_reset` (main.py lines 135-145): when the
stored `last_video_date` differs from today's IST date, the date is stored
and `count_today` and `used_services_today` are reset. -/
def check_daily_reset (s : VState) (t : Nat) : VState :=
  if s.last_video_date ≠ some (istDate t) then
    { s with
      last_video_date := some (istDate t)
      count_today := some 0
      used_services_today := some [] }
  else s

/-- Embedding of `can_post_today` (main.py lines 147-149). -/
def can_post_today (s : VState) : Bool :=
  s.count_today.getD 0 < DAILY_VIDEO_LIMIT

/-- Embedding of `get_next_slno` (main.py lines 151-156). -/
def get_next_slno (s : VState) : Int :=
  let next_slno := s.last_slno.getD 0 + 1
  if next_slno > 999 then 1 else next_slno

/-- Content buckets (`buckets.json` / `DEFAULT_BUCKETS`, config.py); only
the three lists read by `choose_service_and_style` are modelled. -/
structure Buckets where
  services : List String
  styles : List String
  occasions : List String
deriving DecidableEq

/-- Embedding of `choose_service_and_style` (main.py lines 158-172):
filters the services not used today, falling back to the full list (and
clearing `used_services_today`) when all have been used, then draws the
service, style and occasion at random.  Returns the possibly mutated state
alongside the choice; `none` when a `random.choice` raises on an empty
list. -/
def choose_service_and_style (b : Buckets) (s : VState) (r1 r2 r3 : Nat) :
    Option (String × String × String) × VState :=
  let used_today := s.used_services_today.getD []
  let avail0 := b.services.filter (fun x => !(used_today.contains x))
  let available_services := if avail0.isEmpty then b.services else avail0
  let s1 := if avail0.isEmpty then { s with used_services_today := some [] } else s
  match randomChoice available_services r1, randomChoice b.styles r2,
      randomChoice b.occasions r3 with
  | some service, some style, some occasion => (some (service, style, occasion), s1)
  | _, _, _ => (none, s1)

/-- Name of the final video file, `f"{slno:03d}_{service...}.mp4"` (main.py
line 382); the exact formatting is irrelevant to the tracked state. -/
def final_video_name (slno : Int) (service : String) : String :=
  toString slno ++ "_" ++ service ++ ".mp4"

/-- Embedding of the state-update block of `run` (main.py lines 432-440).
Dict index assignments always succeed; `.append` on a missing key raises
`KeyError`, modelled by the `false` flag (with the assignments that already
happened kept in the returned state).  The `used_videos` list is capped to
its 30 most recent entries (`[-30:]`). -/
def recordPost (s : VState) (service video : String) (slno : Int) :
    VState × Bool :=
  let s1 := { s with last_slno := some slno }
  let s2 := { s1 with count_today := some (s1.count_today.getD 0 + 1) }
  match s2.used_services_today with
  | none => (s2, false)
  | some us =>
    let s3 := { s2 with used_services_today := some (us ++ [service]) }
    match s3.used_videos with
    | none => (s3, false)
    | some uv =>
      let uv1 := uv ++ [video]
      let uv2 := if uv1.length > 30 then uv1.drop (uv1.length - 30) else uv1
      ({ s3 with used_videos := some uv2 }, true)

/-- Outcomes of the external collaborators and random draws consumed by
one invocation of `run` (main.py lines 349-452), in source order: the five
`PER_OUTFIT_TIMEOUT` checks, TTS generation, luxury-image generation, video
composition, and the Telegram send, plus the three random draws of
`choose_service_and_style`. -/
structure Env where
  r1 : Nat
  r2 : Nat
  r3 : Nat
  timeout1 : Bool
  timeout2 : Bool
  timeout3 : Bool
  timeout4 : Bool
  timeout5 : Bool
  ttsOk : Bool
  imageOk : Bool
  composeOk : Bool
  sendOk : Bool

/-- Observable outcome of one `run` invocation: the boolean return value,
the final in-memory state, whether `save_state` was reached, whether the
Telegram send succeeded, and the recorded post (service and serial) when
the update block completed. -/
structure RunResult where
  ok : Bool
  state : VState
  saved : Bool
  sent : Bool
  posted : Option (String × Int)
deriving DecidableEq

/-- Failure exit of `run` before the Telegram send: the exception or early
return leaves the in-memory state as it stands and records nothing. -/
def failBefore (s : VState) : RunResult :=
  { ok := false, state := s, saved := false, sent := false, posted := none }

/-- Embedding of `run` (main.py lines 349-452): daily reset, quota check,
serial and content selection, the external steps in source order, and on
full success the state-update block followed by `save_state`.  A `KeyError`
inside the update block is caught by the outer `except` after the send
already happened. -/
def run (b : Buckets) (t : Nat) (env : Env) (s0 : VState) : RunResult :=
  let s1 := check_daily_reset s0 t
  if can_post_today s1 then
    let slno := get_next_slno s1
    match choose_service_and_style b s1 env.r1 env.r2 env.r3 with
    | (none, s2) => failBefore s2
    | (some (service, _style, _occasion), s2) =>
      if env.timeout1 then failBefore s2
      else if env.timeout2 then failBefore s2
      else if !env.ttsOk then failBefore s2
      else if env.timeout3 then failBefore s2
      else if !env.imageOk then failBefore s2
      else if env.timeout4 then failBefore s2
      else if !env.composeOk then failBefore s2
      else if env.timeout5 then failBefore s2
      else if !env.sendOk then failBefore s2
      else
        match recordPost s2 service (final_video_name slno service) slno with
        | (s3, false) =>
          { ok := false, state := s3, saved := false, sent := true, posted := none }
        | (s3, true) =>
          { ok := true, state := s3, saved := true, sent := true,
            posted := some (service, slno) }
  else
    { ok := true, state := s1, saved := false, sent := false, posted := none }

/-- States reachable by the tracker from the first-run default state by any
sequence of its own operations: daily resets, combination selections and
post recordings. -/
inductive ReachableV : VState → Prop where
  | init : ReachableV get_default_state
  | reset (t : Nat) {s : VState} : ReachableV s → ReachableV (check_daily_reset s t)
  | choose (b : Buckets) (r1 r2 r3 : Nat) {s : VState} :
      ReachableV s → ReachableV (choose_service_and_style b s r1 r2 r3).2
  | record (service video : String) (slno : Int) {s : VState} :
      ReachableV s → ReachableV (recordPost s service video slno).1

end AurumVideo

namespace AurumDaily

open Aurum

/-- The JSON state dict of `automation/generate_and_send_daily.py` after
`load_state` has applied its `setdefault` calls (lines 237-252), so every
key is present.  `last_post_date` is the modelled IST day number, `none`
standing for the default `""`. -/
structure DState where
  last_service_index : Int
  last_post_date : Option Nat
  image_generated_today : Bool
  video_generated_today : Bool
  used_combinations : List String
deriving DecidableEq

/-- State produced by `load_state` for a missing or unparsable state file:
the empty dict filled in by the `setdefault` defaults. -/
def defaultDState : DState :=
  { last_service_index := 0
    last_post_date := none
    image_generated_today := false
    video_generated_today := false
    used_combinations := [] }

/-- Condition of `state_daily.json` when `load_state` runs. -/
inductive DFileStatus where
  | missing
  | corrupt
  | valid (s : DState)

/-- Embedding of the daily script's `load_state` (lines 237-252): a missing
file or a `json.load` failure both fall back to the empty dict, and the
`setdefault` calls then supply every default, so either case yields
`defaultDState`. -/
def load_state : DFileStatus → DState
  | .missing => defaultDState
  | .corrupt => defaultDState
  | .valid s => s

/-- The catalog constants read by `choose_service_and_variant`
(`SERVICE_KEYS`, `SERVICE_CONFIG[...]["files"]`, `ENHANCED_VARIANTS`,
`ADVANCED_STYLES`, `ENHANCED_COLOR_PRESETS`, `CONTENT_THEMES`), passed as a
parameter; `generate_zero_cost.py` runs the identical algorithm over its
`SIMPLIFIED_*` constants, so both files are instances of this embedding.
`resolve` models `resolve_image_path`, which consults the filesystem and
returns the resolved path or `None`; `colorPresets` already includes the
source's `.get(service, [("classic", "")])` default. -/
structure Catalog where
  SERVICE_KEYS : List String
  files : String → List String
  resolve : String → Option String
  ENHANCED_VARIANTS : List String
  ADVANCED_STYLES : List String
  colorPresets : String → List (String × String)
  CONTENT_THEMES : List String

/-- Randomness consumed by `choose_service_and_variant`: one
`random.shuffle` oracle per shuffled list, indexed by the iteration of the
service/file scan so each call can shuffle independently, plus the four
`random.choice` draws of the all-used fallback branch. -/
structure ShuffleEnv where
  shuffleV : Nat → List String → List String
  shuffleS : Nat → List String → List String
  shuffleC : Nat → List (String × String) → List (String × String)
  shuffleT : Nat → List String → List String
  rV : Nat
  rS : Nat
  rC : Nat
  rT : Nat

/-- A shuffle oracle is faithful to `random.shuffle` when every shuffled
list is a permutation of its input. -/
def GoodShuffles (e : ShuffleEnv) : Prop :=
  (∀ i l, List.Perm (e.shuffleV i l) l) ∧
  (∀ i l, List.Perm (e.shuffleS i l) l) ∧
  (∀ i l, List.Perm (e.shuffleC i l) l) ∧
  (∀ i l, List.Perm (e.shuffleT i l) l)

/-- Identity shuffle oracle (one legal behaviour of `random.shuffle`). -/
def idShuffles : ShuffleEnv :=
  { shuffleV := fun _ l => l
    shuffleS := fun _ l => l
    shuffleC := fun _ l => l
    shuffleT := fun _ l => l
    rV := 0, rS := 0, rC := 0, rT := 0 }

/-- The fully-qualified combination key
`f"{service}::{v}::{s}::{cname}::{theme}"` (line 678). -/
def combKey (service v s cname theme : String) : String :=
  service ++ "::" ++ v ++ "::" ++ s ++ "::" ++ cname ++ "::" ++ theme

/-- Result tuple of `choose_service_and_variant`:
`(service, path, variant, style, color_name, color_filter, theme)`. -/
structure ChoiceResult where
  service : String
  path : String
  variant : String
  style : String
  color_name : String
  color_filter : String
  theme : String
deriving DecidableEq

/-- The four nested `for` loops over variants, styles, colors and themes
(lines 674-680): first combination whose key is not in `used`. -/
def scanCombos (used : List String) (service : String) (vs ss : List String)
    (cs : List (String × String)) (ts : List String) :
    Option (String × String × String × String × String) :=
  vs.findSome? fun v =>
    ss.findSome? fun st =>
      cs.findSome? fun c =>
        ts.findSome? fun th =>
          if used.contains (combKey service v st c.1 th) then none
          else some (v, st, c.1, c.2, th)

/-- The `for fname in SERVICE_CONFIG[service]["files"]` loop (lines
659-680): unresolvable files are skipped; for a resolved file the four
lists are shuffled afresh (iteration counter `i`) and scanned. -/
def scanFiles (cat : Catalog) (e : ShuffleEnv) (used : List String)
    (service : String) : Nat → List String → Option ChoiceResult
  | _, [] => none
  | i, f :: fs =>
    match cat.resolve f with
    | none => scanFiles cat e used service (i + 1) fs
    | some path =>
      match scanCombos used service (e.shuffleV i cat.ENHANCED_VARIANTS)
          (e.shuffleS i cat.ADVANCED_STYLES) (e.shuffleC i (cat.colorPresets service))
          (e.shuffleT i cat.CONTENT_THEMES) with
      | none => scanFiles cat e used service (i + 1) fs
      | some (v, st, cn, cf, th) =>
        some { service := service, path := path, variant := v, style := st,
               color_name := cn, color_filter := cf, theme := th }

/-- The `for service in ordered_services` loop (lines 658-680). -/
def scanServices (cat : Catalog) (e : ShuffleEnv) (used : List String) :
    Nat → List String → Option ChoiceResult
  | _, [] => none
  | i, sv :: rest =>
    match scanFiles cat e used sv i (cat.files sv) with
    | some r => some r
    | none => scanServices cat e used (i + (cat.files sv).length) rest

/-- The scan order `[SERVICE_KEYS[(next_idx + i) % len(SERVICE_KEYS)] for i
in range(len(SERVICE_KEYS))]` with
`next_idx = last_service_index % len(SERVICE_KEYS)` (lines 654-655);
Python's `%` on a positive modulus agrees with `Int.emod`. -/
def orderedServices (cat : Catalog) (s : DState) : List String :=
  let n := cat.SERVICE_KEYS.length
  let next_idx := (s.last_service_index % (n : Int)).toNat
  (List.range n).map fun i => cat.SERVICE_KEYS.getD ((next_idx + i) % n) ""

/-- Embedding of `choose_service_and_variant` (lines 649-695): scan for an
unused combination in rotated service order; if every combination over the
resolvable files is used, fall back to the first service's first file with
fully random components (lines 682-695).  `none` models the uncaught
`IndexError`/`RuntimeError` exits of the fallback branch; the state is
never written. -/
def choose_service_and_variant (cat : Catalog) (e : ShuffleEnv) (s : DState) :
    Option ChoiceResult :=
  let used := s.used_combinations
  let ordered := orderedServices cat s
  match scanServices cat e used 0 ordered with
  | some r => some r
  | none =>
    match ordered with
    | [] => none
    | sv :: _ =>
      match (cat.files sv).head? with
      | none => none
      | some f =>
        match cat.resolve f with
        | none => none
        | some path =>
          match randomChoice cat.ENHANCED_VARIANTS e.rV,
              randomChoice cat.ADVANCED_STYLES e.rS,
              randomChoice (cat.colorPresets sv) e.rC,
              randomChoice cat.CONTENT_THEMES e.rT with
          | some v, some st, some c, some th =>
            some { service := sv, path := path, variant := v, style := st,
                   color_name := c.1, color_filter := c.2, theme := th }
          | _, _, _, _ => none

/-- A service can still yield a fresh combination: it has at least one
resolvable file and at least one combination key not yet in `used`. -/
def serviceEligible (cat : Catalog) (used : List String) (sv : String) : Bool :=
  ((cat.files sv).any fun f => (cat.resolve f).isSome) &&
  (cat.ENHANCED_VARIANTS.any fun v =>
    cat.ADVANCED_STYLES.any fun st =>
      (cat.colorPresets sv).any fun c =>
        cat.CONTENT_THEMES.any fun th =>
          !(used.contains (combKey sv v st c.1 th)))

/-- The whole combination space over the available (resolvable) assets is
exhausted: for every service that has a resolvable file, every combination
key is already in `used`. -/
def Exhausted (cat : Catalog) (used : List String) : Prop :=
  ∀ sv ∈ cat.SERVICE_KEYS, (∃ f ∈ cat.files sv, (cat.resolve f).isSome) →
    ∀ v ∈ cat.ENHANCED_VARIANTS, ∀ st ∈ cat.ADVANCED_STYLES,
      ∀ c ∈ cat.colorPresets sv, ∀ th ∈ cat.CONTENT_THEMES,
        used.contains (combKey sv v st c.1 th) = true

instance (cat : Catalog) (used : List String) : Decidable (Exhausted cat used) := by
  unfold Exhausted
  infer_instance

/-- State update of `main` after the image post is sent (lines 902-907):
marks the image done, stores the service index, and appends the combination
key to `used_combinations` — with no size cap and no reset. -/
def record_image_post (s : DState) (serviceIndex : Int) (combination : String) :
    DState :=
  { s with
    image_generated_today := true
    last_service_index := serviceIndex
    used_combinations := s.used_combinations ++ [combination] }

/-- Embedding of the daily script's `reset_daily_state` (lines 261-272),
restricted to its in-memory effect (the `save_state` call it makes is the
filesystem trace modelled separately). -/
def reset_daily_state (s : DState) (t : Nat) : DState :=
  if s.last_post_date ≠ some (AurumVideo.istDate t) then
    { s with
      last_post_date := some (AurumVideo.istDate t)
      image_generated_today := false
      video_generated_today := false
      used_combinations := [] }
  else s

end AurumDaily

namespace Fs

/-- Filesystem operations performed by the state-saving code, as a trace. -/
inductive FsOp where
  | write (path : String) (content : String)
  | rename (src : String) (dst : String)
  | mkdir (path : String)
  | unlink (path : String)
deriving DecidableEq

/-- Does the trace open the target path itself for writing?  A crash during
such a write leaves the target corrupt. -/
def writesDirectly (ops : List FsOp) (target : String) : Bool :=
  ops.any fun op =>
    match op with
    | FsOp.write p _ => p == target
    | _ => false

/-- Source path of a rename whose destination is `target`. -/
def isRenameTo (target : String) : FsOp → Option String
  | FsOp.rename src dst => if dst = target then some src else none
  | _ => none

/-- Atomic replacement discipline: the target is never written directly,
and it is produced by renaming a distinct temporary path that the trace
wrote beforehand. -/
def atomicReplace (ops : List FsOp) (target : String) : Bool :=
  !(writesDirectly ops target) &&
  (ops.any fun op =>
    match isRenameTo target op with
    | some tmp =>
      (tmp != target) &&
      (ops.any fun op2 =>
        match op2 with
        | FsOp.write p _ => p == tmp
        | _ => false)
    | none => false)

/-- State file of `automation-video` (`STATE_PATH`, config.py line 18). -/
def VIDEO_STATE_PATH : String := "state.json"

/-- `STATE_PATH.with_suffix(".tmp")` (main.py line 125). -/
def VIDEO_TEMP_STATE_PATH : String := "state.tmp"

/-- Filesystem trace of `save_state` in `automation-video/main.py` (lines
123-133): dump to the temporary path, then `Path.replace` it over the state
path; when an exception interrupts the attempt, the `except` branch only
unlinks the temporary file and the state path is never touched. -/
def save_state_video_ops (content : String) (ioError : Bool) : List FsOp :=
  if ioError then
    [FsOp.write VIDEO_TEMP_STATE_PATH content, FsOp.unlink VIDEO_TEMP_STATE_PATH]
  else
    [FsOp.write VIDEO_TEMP_STATE_PATH content,
     FsOp.rename VIDEO_TEMP_STATE_PATH VIDEO_STATE_PATH]

/-- State file of the daily script (`STATE_PATH`, line 28). -/
def DAILY_STATE_PATH : String := "automation/state_daily.json"

/-- Filesystem trace of `save_state` in
`automation/generate_and_send_daily.py` (lines 255-258): make the parent
directory, then open the state path itself for writing — no temporary file
and no rename. -/
def save_state_daily_ops (content : String) : List FsOp :=
  [FsOp.mkdir "automation", FsOp.write DAILY_STATE_PATH content]

end Fs

namespace AurumVideo

/-- Concrete environment in which every external step succeeds and every
random draw picks index 0. -/
def okEnv : Env :=
  { r1 := 0, r2 := 0, r3 := 0
    timeout1 := false, timeout2 := false, timeout3 := false
    timeout4 := false, timeout5 := false
    ttsOk := true, imageOk := true, composeOk := true, sendOk := true }

/-- Concrete two-service bucket file. -/
def bucketsAB : Buckets :=
  { services := ["Bespoke Suit", "Sherwani"]
    styles := ["Classic"]
    occasions := ["Wedding"] }

/-- Concrete seven-service bucket file. -/
def buckets7 : Buckets :=
  { services := ["Bespoke Suit", "Sherwani", "Tuxedo", "Bandgala",
                 "Pathani Suit", "Modi Jacket", "Tailored Shirt"]
    styles := ["Classic"]
    occasions := ["Wedding"] }

/-- Concrete state in which six of the seven services of `buckets7` have
already been used today. -/
def stateSixUsed : VState :=
  { get_default_state with
    last_video_date := some 0
    used_services_today := some ["Bespoke Suit", "Sherwani", "Tuxedo",
                                 "Bandgala", "Pathani Suit", "Modi Jacket"] }

/-- Concrete state that has already reached today's quota. -/
def stateQuota : VState :=
  { last_video_date := some 0
    count_today := some 3
    last_slno := some 5
    used_services_today := some ["Bespoke Suit"]
    used_videos := some ["005_bespoke suit.mp4"]
    last_rotation := some 0 }

/-- Concrete state whose serial counter sits at the ceiling. -/
def state999 : VState := { get_default_state with last_slno := some 999 }

end AurumVideo

namespace AurumDaily

/-- Concrete one-service catalog with a single variant, style, color and
theme, so the whole combination space has exactly one key. -/
def cat1 : Catalog :=
  { SERVICE_KEYS := ["Bespoke Suits"]
    files := fun _ => ["suit.jpg"]
    resolve := fun f => if f = "suit.jpg" then some "images/services/suit.jpg" else none
    ENHANCED_VARIANTS := ["none"]
    ADVANCED_STYLES := ["none"]
    colorPresets := fun _ => [("classic", "")]
    CONTENT_THEMES := ["craftsmanship"] }

/-- Concrete state in which the single combination of `cat1` has already
been used, i.e. the combination space is exhausted. -/
def exhaustedState : DState :=
  { defaultDState with
    used_combinations := ["Bespoke Suits::none::none::classic::craftsmanship"] }

end AurumDaily

namespace Aurum

theorem randomChoice_mem {α : Type} {l : List α} {r : Nat} {a : α}
    (h : randomChoice l r = some a) : a ∈ l := by
  unfold randomChoice at h
  exact List.getElem?_mem h

theorem randomChoice_eq_some_of_ne_nil {α : Type} (l : List α) (r : Nat)
    (h : l ≠ []) : ∃ a, randomChoice l r = some a ∧ a ∈ l := by
  have hlen : 0 < l.length := List.length_pos.mpr h
  have hlt : r % l.length < l.length := Nat.mod_lt _ hlen
  exact ⟨l[r % l.length], by simp [randomChoice, List.getElem?_eq_getElem hlt],
    List.getElem_mem hlt⟩

end Aurum

namespace AurumVideo

open Aurum

theorem check_daily_reset_same_date {s : VState} {t : Nat}
    (h : s.last_video_date = some (istDate t)) : check_daily_reset s t = s := by
  simp [check_daily_reset, h]

theorem check_daily_reset_date (s : VState) (t : Nat) :
    (check_daily_reset s t).last_video_date = some (istDate t) := by
  unfold check_daily_reset
  split
  · rfl
  · next h => simpa using h

theorem check_daily_reset_idem (s : VState) (t : Nat) :
    check_daily_reset (check_daily_reset s t) t = check_daily_reset s t :=
  check_daily_reset_same_date (check_daily_reset_date s t)

theorem check_daily_reset_last_slno (s : VState) (t : Nat) :
    (check_daily_reset s t).last_slno = s.last_slno := by
  unfold check_daily_reset
  split <;> rfl

theorem check_daily_reset_used_videos (s : VState) (t : Nat) :
    (check_daily_reset s t).used_videos = s.used_videos := by
  unfold check_daily_reset
  split <;> rfl

theorem check_daily_reset_last_rotation (s : VState) (t : Nat) :
    (check_daily_reset s t).last_rotation = s.last_rotation := by
  unfold check_daily_reset
  split <;> rfl

theorem choose_snd (b : Buckets) (s : VState) (r1 r2 r3 : Nat) :
    (choose_service_and_style b s r1 r2 r3).2 = s ∨
    (choose_service_and_style b s r1 r2 r3).2 =
      { s with used_services_today := some [] } := by
  unfold choose_service_and_style
  dsimp only
  split <;> split <;> simp

theorem choose_snd_last_slno (b : Buckets) (s : VState) (r1 r2 r3 : Nat) :
    (choose_service_and_style b s r1 r2 r3).2.last_slno = s.last_slno := by
  rcases choose_snd b s r1 r2 r3 with h | h <;> rw [h]

theorem choose_snd_used_videos (b : Buckets) (s : VState) (r1 r2 r3 : Nat) :
    (choose_service_and_style b s r1 r2 r3).2.used_videos = s.used_videos := by
  rcases choose_snd b s r1 r2 r3 with h | h <;> rw [h]

theorem choose_snd_last_rotation (b : Buckets) (s : VState) (r1 r2 r3 : Nat) :
    (choose_service_and_style b s r1 r2 r3).2.last_rotation = s.last_rotation := by
  rcases choose_snd b s r1 r2 r3 with h | h <;> rw [h]

theorem recordPost_used_videos_bound (s : VState) (service video : String)
    (slno : Int) (h : (s.used_videos.getD []).length ≤ 30) :
    ((recordPost s service video slno).1.used_videos.getD []).length ≤ 30 := by
  unfold recordPost
  dsimp only
  split
  · exact h
  · next us hus =>
    split
    · next huv => simp [huv]
    · next uv huv =>
      have huv' : s.used_videos = some uv := huv
      rw [huv'] at h
      simp only [Option.getD_some] at h ⊢
      split
      · next hgt =>
        simp only [List.length_drop]
        omega
      · next hle =>
        simp only [List.length_append, List.length_cons, List.length_nil] at hle ⊢
        omega

theorem run_sent_or_slno (b : Buckets) (t : Nat) (env : Env) (s : VState) :
    (run b t env s).sent = true ∨
    (run b t env s).state.last_slno = (check_daily_reset s t).last_slno := by
  have hch := choose_snd_last_slno b (check_daily_reset s t) env.r1 env.r2 env.r3
  unfold run
  dsimp only
  split
  · split
    · next s2 heq =>
      rw [heq] at hch
      right
      exact hch
    · next service style occasion s2 heq =>
      rw [heq] at hch
      repeat' split
      all_goals first
        | (left; rfl)
        | (right; exact hch)
  · right
    rfl

theorem run_posted_slno (b : Buckets) (t : Nat) (env : Env) (s : VState)
    (sv : String) (n : Int) (h : (run b t env s).posted = some (sv, n)) :
    n = get_next_slno (check_daily_reset s t) := by
  unfold run at h
  dsimp only at h
  split at h
  · split at h
    · next s2 heq => simp [failBefore] at h
    · next service style occasion s2 heq =>
      repeat' split at h
      all_goals simp_all [failBefore]
  · simp at h

/-- C1: for every state whose stored date is today's IST date and whose
`count_today` has reached `DAILY_VIDEO_LIMIT`, `can_post_today` returns
`false` and `run` exits early: it selects no combination, sends nothing,
records nothing, saves nothing, and leaves the state unchanged. -/
theorem claim_C1_quota_blocks (b : Buckets) (t : Nat) (env : Env) (s : VState)
    (hdate : s.last_video_date = some (istDate t))
    (hcount : DAILY_VIDEO_LIMIT ≤ s.count_today.getD 0) :
    can_post_today s = false ∧
    run b t env s =
      { ok := true, state := s, saved := false, sent := false, posted := none } := by
  have hs : check_daily_reset s t = s := check_daily_reset_same_date hdate
  have hcp : can_post_today s = false := by
    unfold can_post_today
    simp only [decide_eq_false_iff_not, not_lt]
    exact hcount
  refine ⟨hcp, ?_⟩
  unfold run
  dsimp only
  rw [hs, hcp]
  simp

/-- Witness for C1 at a concrete quota-reached state. -/
theorem claim_C1_witness :
    can_post_today stateQuota = false ∧
    run bucketsAB 0 okEnv stateQuota =
      { ok := true, state := stateQuota, saved := false, sent := false,
        posted := none } :=
  claim_C1_quota_blocks bucketsAB 0 okEnv stateQuota (by decide) (by decide)

/-- C2: `check_daily_reset` resets `count_today` to 0 and clears
`used_services_today` exactly when the stored date differs from the IST
date of the timestamp; when the dates agree it changes nothing at all, and
it is idempotent, so the reset happens at most once per date and repeated
calls without an intervening `recordPost` never change `count_today`. -/
theorem claim_C2_daily_reset (s : VState) (t : Nat) :
    (s.last_video_date ≠ some (istDate t) →
      (check_daily_reset s t).count_today = some 0 ∧
      (check_daily_reset s t).used_services_today = some [] ∧
      (check_daily_reset s t).last_video_date = some (istDate t)) ∧
    (s.last_video_date = some (istDate t) → check_daily_reset s t = s) ∧
    check_daily_reset (check_daily_reset s t) t = check_daily_reset s t := by
  refine ⟨?_, fun h => check_daily_reset_same_date h, check_daily_reset_idem s t⟩
  intro h
  unfold check_daily_reset
  rw [if_pos h]
  exact ⟨rfl, rfl, rfl⟩

/-- Witness for C2 at the default (never-reset) state and timestamp 0. -/
theorem claim_C2_witness :
    (check_daily_reset get_default_state 0).count_today = some 0 ∧
    (check_daily_reset get_default_state 0).used_services_today = some [] ∧
    (check_daily_reset get_default_state 0).last_video_date = some (istDate 0) ∧
    check_daily_reset (check_daily_reset get_default_state 0) 0 =
      check_daily_reset get_default_state 0 := by
  have h := claim_C2_daily_reset get_default_state 0
  have h1 := h.1 (by decide)
  exact ⟨h1.1, h1.2.1, h1.2.2, h.2.2⟩

/-- C3: whenever `choose_service_and_style` returns a choice, the chosen
service is in the catalog, and it is not in `used_services_today` unless
every service of the catalog is already in it. -/
theorem claim_C3_choose_avoids_used (b : Buckets) (s : VState) (r1 r2 r3 : Nat)
    (sv st oc : String) (s' : VState)
    (h : choose_service_and_style b s r1 r2 r3 = (some (sv, st, oc), s')) :
    sv ∈ b.services ∧
    ((s.used_services_today.getD []).contains sv = false ∨
      ∀ c ∈ b.services, (s.used_services_today.getD []).contains c = true) := by
  unfold choose_service_and_style at h
  dsimp only at h
  by_cases hE :
      (b.services.filter fun x => !((s.used_services_today.getD []).contains x)).isEmpty
  · rw [if_pos hE, if_pos hE] at h
    have hall : ∀ c ∈ b.services, (s.used_services_today.getD []).contains c = true := by
      have hnil := List.isEmpty_iff.mp hE
      intro c hc
      have := List.filter_eq_nil_iff.mp hnil c hc
      simpa using this
    split at h
    · next service style occasion hr1 hr2 hr3 =>
      have hmem : service ∈ b.services := randomChoice_mem hr1
      obtain ⟨he, _⟩ := Prod.mk.injEq .. ▸ h
      cases h
      exact ⟨hmem, Or.inr hall⟩
    · next => cases h
  · rw [if_neg hE, if_neg hE] at h
    split at h
    · next service style occasion hr1 hr2 hr3 =>
      have hmem := randomChoice_mem hr1
      rw [List.mem_filter] at hmem
      cases h
      refine ⟨hmem.1, Or.inl ?_⟩
      simpa using hmem.2
    · next => cases h

/-- Witness for C3: seven services with six already used today — the choice
is the seventh, and the theorem certifies it is unused. -/
theorem claim_C3_witness :
    "Tailored Shirt" ∈ buckets7.services ∧
    ((stateSixUsed.used_services_today.getD []).contains "Tailored Shirt" = false ∨
      ∀ c ∈ buckets7.services,
        (stateSixUsed.used_services_today.getD []).contains c = true) :=
  claim_C3_choose_avoids_used buckets7 stateSixUsed 0 0 0
    "Tailored Shirt" "Classic" "Wedding" stateSixUsed (by decide)

/-- C5: for a stored serial between 0 and 999, `get_next_slno` returns the
successor, wrapping from 999 to 1, and never returns 0 or a negative
number; it is a pure function of the state, and `run` writes a serial into
the state only after the send succeeded — on every path that did not reach
the send, `last_slno` is unchanged — and the serial it records is exactly
`get_next_slno` of the post-reset state. -/
theorem claim_C5_next_serial (s : VState) (v : Int) (hv : s.last_slno = some v)
    (h0 : 0 ≤ v) (h9 : v ≤ 999) :
    get_next_slno s = (if v = 999 then 1 else v + 1) ∧
    1 ≤ get_next_slno s ∧
    ∀ b t env, ((run b t env s).sent = false →
        (run b t env s).state.last_slno = s.last_slno) ∧
      ∀ sv n, (run b t env s).posted = some (sv, n) →
        n = get_next_slno (check_daily_reset s t) := by
  have heq : get_next_slno s = if v = 999 then 1 else v + 1 := by
    unfold get_next_slno
    rw [hv]
    simp only [Option.getD_some]
    by_cases hv9 : v = 999
    · subst hv9
      norm_num
    · have hlt : ¬ v + 1 > 999 := by omega
      simp [hlt, hv9]
  refine ⟨heq, ?_, ?_⟩
  · rw [heq]
    by_cases hv9 : v = 999
    · simp [hv9]
    · simp only [hv9, if_false]
      omega
  · intro b t env
    constructor
    · intro hsent
      rcases run_sent_or_slno b t env s with h | h
      · rw [h] at hsent
        cases hsent
      · rw [h, check_daily_reset_last_slno]
    · intro sv n hp
      exact run_posted_slno b t env s sv n hp

/-- Witness for C5 at the ceiling: serial 999 wraps to 1. -/
theorem claim_C5_witness :
    get_next_slno state999 = 1 ∧ 1 ≤ get_next_slno state999 := by
  have h := claim_C5_next_serial state999 999 rfl (by decide) (by decide)
  refine ⟨?_, h.2.1⟩
  rw [h.1]
  decide

/-- C6: in every state reachable from the first-run default state by the
tracker's own operations, `used_videos` never holds more than 30 entries;
`recordPost` evicts the oldest entries whenever an insertion would overflow
the bound, and the other operations leave the history unchanged. -/
theorem claim_C6_history_bound (s : VState) (h : ReachableV s) :
    (s.used_videos.getD []).length ≤ 30 := by
  induction h with
  | init => simp [get_default_state]
  | reset t _ ih =>
    rw [check_daily_reset_used_videos]
    exact ih
  | choose b r1 r2 r3 _ ih =>
    rw [choose_snd_used_videos]
    exact ih
  | record service video slno _ ih =>
    exact recordPost_used_videos_bound _ _ _ _ ih

/-- Witness for C6: the bound holds after recording a post from the default
state. -/
theorem claim_C6_witness :
    (((recordPost get_default_state "Sherwani" "001_sherwani.mp4" 1).1).used_videos.getD
      []).length ≤ 30 :=
  claim_C6_history_bound _ (ReachableV.record "Sherwani" "001_sherwani.mp4" 1 ReachableV.init)

/-- C10: the daily reset modifies only the stored date, the daily counter
and the per-day used-services list: `last_slno`, `used_videos` and
`last_rotation` are unchanged by `check_daily_reset`, and the combination
selection step also leaves `last_slno` and `used_videos` unchanged, so
serial numbering and the cross-day history are altered only by recording a
post. -/
theorem claim_C10_reset_frame (s : VState) (t : Nat) (b : Buckets)
    (r1 r2 r3 : Nat) :
    (check_daily_reset s t).last_slno = s.last_slno ∧
    (check_daily_reset s t).used_videos = s.used_videos ∧
    (check_daily_reset s t).last_rotation = s.last_rotation ∧
    (choose_service_and_style b s r1 r2 r3).2.last_slno = s.last_slno ∧
    (choose_service_and_style b s r1 r2 r3).2.used_videos = s.used_videos :=
  ⟨check_daily_reset_last_slno s t, check_daily_reset_used_videos s t,
    check_daily_reset_last_rotation s t, choose_snd_last_slno b s r1 r2 r3,
    choose_snd_used_videos b s r1 r2 r3⟩

end AurumVideo

namespace AurumDaily

open Aurum

theorem goodShuffles_id : GoodShuffles idShuffles :=
  ⟨fun _ l => List.Perm.refl l, fun _ l => List.Perm.refl l,
    fun _ l => List.Perm.refl l, fun _ l => List.Perm.refl l⟩

theorem scanCombos_eq_some {used : List String} {sv : String}
    {vs ss : List String} {cs : List (String × String)} {ts : List String}
    {v st cn cf th : String}
    (h : scanCombos used sv vs ss cs ts = some (v, st, cn, cf, th)) :
    used.contains (combKey sv v st cn th) = false ∧
    v ∈ vs ∧ st ∈ ss ∧ (cn, cf) ∈ cs ∧ th ∈ ts := by
  unfold scanCombos at h
  obtain ⟨v', hv', h⟩ := List.exists_of_findSome?_eq_some h
  obtain ⟨st', hst', h⟩ := List.exists_of_findSome?_eq_some h
  obtain ⟨c', hc', h⟩ := List.exists_of_findSome?_eq_some h
  obtain ⟨th', hth', h⟩ := List.exists_of_findSome?_eq_some h
  split at h
  · cases h
  · next hcont =>
    simp only [Option.some.injEq, Prod.mk.injEq] at h
    obtain ⟨h1, h2, h3, h4, h5⟩ := h
    subst h1
    subst h2
    subst h3
    subst h4
    subst h5
    refine ⟨by simpa using hcont, hv', hst', ?_, hth'⟩
    simpa using hc'

theorem scanCombos_eq_none {used : List String} {sv : String}
    {vs ss : List String} {cs : List (String × String)} {ts : List String}
    (h : scanCombos used sv vs ss cs ts = none) :
    ∀ v ∈ vs, ∀ st ∈ ss, ∀ c ∈ cs, ∀ th ∈ ts,
      used.contains (combKey sv v st c.1 th) = true := by
  unfold scanCombos at h
  rw [List.findSome?_eq_none_iff] at h
  intro v hv st hst c hc th hth
  have h1 := h v hv
  rw [List.findSome?_eq_none_iff] at h1
  have h2 := h1 st hst
  rw [List.findSome?_eq_none_iff] at h2
  have h3 := h2 c hc
  rw [List.findSome?_eq_none_iff] at h3
  have h4 := h3 th hth
  split at h4
  · next hcont => exact hcont
  · cases h4

theorem scanFiles_eq_some (cat : Catalog) (e : ShuffleEnv) (used : List String)
    (sv : String) :
    ∀ (fs : List String) (i : Nat) (r : ChoiceResult),
      scanFiles cat e used sv i fs = some r →
      r.service = sv ∧
      used.contains (combKey sv r.variant r.style r.color_name r.theme) = false := by
  intro fs
  induction fs with
  | nil =>
    intro i r h
    simp [scanFiles] at h
  | cons f' fs ih =>
    intro i r h
    unfold scanFiles at h
    split at h
    · exact ih (i + 1) r h
    · split at h
      · exact ih (i + 1) r h
      · next v st cn cf th hsc =>
        cases h
        exact ⟨rfl, (scanCombos_eq_some hsc).1⟩

theorem scanFiles_eq_none (cat : Catalog) (e : ShuffleEnv) (used : List String)
    (sv : String) (hg : GoodShuffles e) :
    ∀ (fs : List String) (i : Nat),
      scanFiles cat e used sv i fs = none →
      ∀ f ∈ fs, (cat.resolve f).isSome = true →
      ∀ v ∈ cat.ENHANCED_VARIANTS, ∀ st ∈ cat.ADVANCED_STYLES,
        ∀ c ∈ cat.colorPresets sv, ∀ th ∈ cat.CONTENT_THEMES,
          used.contains (combKey sv v st c.1 th) = true := by
  intro fs
  induction fs with
  | nil =>
    intro i h f hf
    exact absurd hf (List.not_mem_nil f)
  | cons f' fs ih =>
    intro i h f hf hres v hv st hst c hc th hth
    unfold scanFiles at h
    split at h
    · next hr =>
      rcases List.mem_cons.mp hf with rfl | hf2
      · rw [hr] at hres
        simp at hres
      · exact ih (i + 1) h f hf2 hres v hv st hst c hc th hth
    · next path hr =>
      split at h
      · next hsc =>
        exact scanCombos_eq_none hsc v ((hg.1 i _).mem_iff.mpr hv) st
          ((hg.2.1 i _).mem_iff.mpr hst) c ((hg.2.2.1 i _).mem_iff.mpr hc) th
          ((hg.2.2.2 i _).mem_iff.mpr hth)
      · next v' st' cn cf th' hsc => cases h

theorem scanFiles_isSome_of (cat : Catalog) (e : ShuffleEnv) (used : List String)
    (sv : String) (hg : GoodShuffles e) :
    ∀ (fs : List String) (i : Nat),
      (∃ f ∈ fs, (cat.resolve f).isSome = true) →
      (∃ v ∈ cat.ENHANCED_VARIANTS, ∃ st ∈ cat.ADVANCED_STYLES,
        ∃ c ∈ cat.colorPresets sv, ∃ th ∈ cat.CONTENT_THEMES,
          used.contains (combKey sv v st c.1 th) = false) →
      (scanFiles cat e used sv i fs).isSome = true := by
  intro fs
  induction fs with
  | nil =>
    intro i hf _
    obtain ⟨f, hf0, _⟩ := hf
    exact absurd hf0 (List.not_mem_nil f)
  | cons f' fs ih =>
    intro i hf hcombo
    unfold scanFiles
    cases hr : cat.resolve f' with
    | none =>
      simp only [hr]
      apply ih (i + 1)
      · obtain ⟨f, hf0, hfr⟩ := hf
        rcases List.mem_cons.mp hf0 with rfl | hf2
        · rw [hr] at hfr
          simp at hfr
        · exact ⟨f, hf2, hfr⟩
      · exact hcombo
    | some path =>
      simp only [hr]
      cases hsc : scanCombos used sv (e.shuffleV i cat.ENHANCED_VARIANTS)
          (e.shuffleS i cat.ADVANCED_STYLES) (e.shuffleC i (cat.colorPresets sv))
          (e.shuffleT i cat.CONTENT_THEMES) with
      | none =>
        exfalso
        obtain ⟨v, hv, st, hst, c, hc, th, hth, hun⟩ := hcombo
        have hall := scanCombos_eq_none hsc v ((hg.1 i _).mem_iff.mpr hv) st
          ((hg.2.1 i _).mem_iff.mpr hst) c ((hg.2.2.1 i _).mem_iff.mpr hc) th
          ((hg.2.2.2 i _).mem_iff.mpr hth)
        rw [hun] at hall
        cases hall
      | some res =>
        obtain ⟨v, st, cn, cf, th⟩ := res
        simp [hsc]

theorem scanFiles_some_parts (cat : Catalog) (e : ShuffleEnv) (used : List String)
    (sv : String) (hg : GoodShuffles e) :
    ∀ (fs : List String) (i : Nat) (r : ChoiceResult),
      scanFiles cat e used sv i fs = some r →
      (∃ f ∈ fs, (cat.resolve f).isSome = true) ∧
      ∃ v ∈ cat.ENHANCED_VARIANTS, ∃ st ∈ cat.ADVANCED_STYLES,
        ∃ c ∈ cat.colorPresets sv, ∃ th ∈ cat.CONTENT_THEMES,
          used.contains (combKey sv v st c.1 th) = false := by
  intro fs
  induction fs with
  | nil =>
    intro i r h
    simp [scanFiles] at h
  | cons f' fs ih =>
    intro i r h
    unfold scanFiles at h
    split at h
    · next hr =>
      obtain ⟨⟨f, hf, hfr⟩, hcombo⟩ := ih (i + 1) r h
      exact ⟨⟨f, List.mem_cons_of_mem f' hf, hfr⟩, hcombo⟩
    · next path hr =>
      split at h
      · next hsc =>
        obtain ⟨⟨f, hf, hfr⟩, hcombo⟩ := ih (i + 1) r h
        exact ⟨⟨f, List.mem_cons_of_mem f' hf, hfr⟩, hcombo⟩
      · next v st cn cf th hsc =>
        obtain ⟨hun, hv, hst, hc, hth⟩ := scanCombos_eq_some hsc
        refine ⟨⟨f', List.mem_cons_self f' fs, by rw [hr]; rfl⟩, ?_⟩
        exact ⟨v, (hg.1 i _).mem_iff.mp hv, st, (hg.2.1 i _).mem_iff.mp hst,
          (cn, cf), (hg.2.2.1 i _).mem_iff.mp hc, th, (hg.2.2.2 i _).mem_iff.mp hth, hun⟩

theorem serviceEligible_iff (cat : Catalog) (used : List String) (sv : String) :
    serviceEligible cat used sv = true ↔
    ((∃ f ∈ cat.files sv, (cat.resolve f).isSome = true) ∧
      ∃ v ∈ cat.ENHANCED_VARIANTS, ∃ st ∈ cat.ADVANCED_STYLES,
        ∃ c ∈ cat.colorPresets sv, ∃ th ∈ cat.CONTENT_THEMES,
          used.contains (combKey sv v st c.1 th) = false) := by
  unfold serviceEligible
  simp [List.any_eq_true]

theorem scanServices_eq_some_unused (cat : Catalog) (e : ShuffleEnv)
    (used : List String) :
    ∀ (svs : List String) (i : Nat) (r : ChoiceResult),
      scanServices cat e used i svs = some r →
      used.contains (combKey r.service r.variant r.style r.color_name r.theme) =
        false := by
  intro svs
  induction svs with
  | nil =>
    intro i r h
    simp [scanServices] at h
  | cons sv rest ih =>
    intro i r h
    unfold scanServices at h
    split at h
    · next r0 heq =>
      have hr : r0 = r := by injection h
      subst hr
      obtain ⟨hsv, hun⟩ := scanFiles_eq_some cat e used sv (cat.files sv) i _ heq
      rw [hsv]
      exact hun
    · exact ih _ r h

theorem scanServices_eq_some_find (cat : Catalog) (e : ShuffleEnv)
    (used : List String) (hg : GoodShuffles e) :
    ∀ (svs : List String) (i : Nat) (r : ChoiceResult),
      scanServices cat e used i svs = some r →
      svs.find? (serviceEligible cat used) = some r.service := by
  intro svs
  induction svs with
  | nil =>
    intro i r h
    simp [scanServices] at h
  | cons sv rest ih =>
    intro i r h
    unfold scanServices at h
    split at h
    · next r0 heq =>
      have hr : r0 = r := by injection h
      subst hr
      have hsv := (scanFiles_eq_some cat e used sv (cat.files sv) i _ heq).1
      have hparts := scanFiles_some_parts cat e used sv hg (cat.files sv) i _ heq
      have hel : serviceEligible cat used sv = true :=
        (serviceEligible_iff cat used sv).mpr hparts
      rw [List.find?_cons_of_pos _ hel, hsv]
    · next heq =>
      have hel : serviceEligible cat used sv = false := by
        cases hx : serviceEligible cat used sv
        · rfl
        · exfalso
          obtain ⟨hf, hcombo⟩ := (serviceEligible_iff cat used sv).mp hx
          have hsome := scanFiles_isSome_of cat e used sv hg (cat.files sv) i hf hcombo
          rw [heq] at hsome
          simp at hsome
      rw [List.find?_cons_of_neg _ (by simp [hel])]
      exact ih _ r h

theorem scanServices_eq_none (cat : Catalog) (e : ShuffleEnv)
    (used : List String) (hg : GoodShuffles e) :
    ∀ (svs : List String) (i : Nat),
      scanServices cat e used i svs = none →
      ∀ sv ∈ svs, serviceEligible cat used sv = false := by
  intro svs
  induction svs with
  | nil =>
    intro i _ sv hsv
    exact absurd hsv (List.not_mem_nil sv)
  | cons sv0 rest ih =>
    intro i h sv hsv
    unfold scanServices at h
    split at h
    · cases h
    · next heq =>
      rcases List.mem_cons.mp hsv with rfl | hsv2
      · cases hx : serviceEligible cat used sv
        · rfl
        · exfalso
          obtain ⟨hf, hcombo⟩ := (serviceEligible_iff cat used sv).mp hx
          have hsome := scanFiles_isSome_of cat e used sv hg (cat.files sv) i hf hcombo
          rw [heq] at hsome
          simp at hsome
      · exact ih _ h sv hsv2

theorem orderedServices_eq_rotate (cat : Catalog) (s : DState) :
    orderedServices cat s =
      cat.SERVICE_KEYS.rotate
        ((s.last_service_index % (cat.SERVICE_KEYS.length : Int)).toNat) := by
  unfold orderedServices
  dsimp only
  apply List.ext_getElem
  · simp
  · intro i h1 h2
    simp only [List.getElem_map, List.getElem_range]
    rw [List.getElem_rotate]
    have hn : 0 < cat.SERVICE_KEYS.length := by
      simp only [List.length_map, List.length_range] at h1
      omega
    have hlt :
        ((s.last_service_index % (cat.SERVICE_KEYS.length : Int)).toNat + i) %
            cat.SERVICE_KEYS.length < cat.SERVICE_KEYS.length :=
      Nat.mod_lt _ hn
    rw [List.getD_eq_getElem?_getD, List.getElem?_eq_getElem hlt]
    simp only [Option.getD_some]
    congr 1
    rw [Nat.add_comm]

theorem orderedServices_perm (cat : Catalog) (s : DState) :
    List.Perm (orderedServices cat s) cat.SERVICE_KEYS := by
  rw [orderedServices_eq_rotate]
  exact List.rotate_perm _ _

/-- C4 (amended): whenever `choose_service_and_variant` returns a
combination and the combination space over the resolvable assets is not
exhausted, the returned fully-qualified key is not in `used_combinations`;
in the exhausted case the function returns a used combination and the
history is left untouched (see the counterexample for the unamended
reset/eviction clause). -/
theorem claim_C4_amended (cat : Catalog) (e : ShuffleEnv) (s : DState)
    (r : ChoiceResult) (hg : GoodShuffles e)
    (h : choose_service_and_variant cat e s = some r)
    (hne : ¬ Exhausted cat s.used_combinations) :
    s.used_combinations.contains
      (combKey r.service r.variant r.style r.color_name r.theme) = false := by
  unfold choose_service_and_variant at h
  dsimp only at h
  split at h
  · next r0 heq =>
    have hr : r0 = r := by injection h
    subst hr
    exact scanServices_eq_some_unused cat e s.used_combinations _ 0 _ heq
  · next heq =>
    exfalso
    apply hne
    intro sv hsv hres v hv st hst c hc th hth
    have hsv' : sv ∈ orderedServices cat s :=
      (orderedServices_perm cat s).mem_iff.mpr hsv
    have hel := scanServices_eq_none cat e s.used_combinations hg _ 0 heq sv hsv'
    by_contra hcx
    have hfalse : s.used_combinations.contains (combKey sv v st c.1 th) = false :=
      Bool.eq_false_iff.mpr hcx
    have htrue : serviceEligible cat s.used_combinations sv = true := by
      rw [serviceEligible_iff]
      exact ⟨hres, v, hv, st, hst, c, hc, th, hth, hfalse⟩
    rw [hel] at htrue
    cases htrue

/-- Counterexample to C4 as stated: with a one-combination catalog whose
single key is already in the history, `choose_service_and_variant` returns
that used combination, and neither the call nor the recording step that
follows it resets or evicts the history — the caller appends the used key a
second time. -/
theorem claim_C4_counterexample :
    choose_service_and_variant cat1 idShuffles exhaustedState =
      some { service := "Bespoke Suits", path := "images/services/suit.jpg",
             variant := "none", style := "none", color_name := "classic",
             color_filter := "", theme := "craftsmanship" } ∧
    exhaustedState.used_combinations.contains
      (combKey "Bespoke Suits" "none" "none" "classic" "craftsmanship") = true ∧
    (record_image_post exhaustedState 0
        (combKey "Bespoke Suits" "none" "none" "classic" "craftsmanship")).used_combinations =
      ["Bespoke Suits::none::none::classic::craftsmanship",
       "Bespoke Suits::none::none::classic::craftsmanship"] := by
  decide

/-- Witness for the amended C4 at a non-exhausted concrete input. -/
theorem claim_C4_witness :
    defaultDState.used_combinations.contains
      (combKey "Bespoke Suits" "none" "none" "classic" "craftsmanship") = false :=
  claim_C4_amended cat1 idShuffles defaultDState
    { service := "Bespoke Suits", path := "images/services/suit.jpg",
      variant := "none", style := "none", color_name := "classic",
      color_filter := "", theme := "craftsmanship" }
    goodShuffles_id (by decide) (by decide)

/-- C9 (amended): in `choose_service_and_variant`, the service scan order
is exactly the catalog rotated by `last_service_index mod len(SERVICE_KEYS)`,
and the chosen service is determined by the state alone: it is the first
eligible service in that rotated order, or the rotation's head when no
service is eligible — independent of every random shuffle and draw. -/
theorem claim_C9_amended (cat : Catalog) (e : ShuffleEnv) (s : DState)
    (r : ChoiceResult) (hg : GoodShuffles e)
    (h : choose_service_and_variant cat e s = some r) :
    orderedServices cat s =
      cat.SERVICE_KEYS.rotate
        ((s.last_service_index % (cat.SERVICE_KEYS.length : Int)).toNat) ∧
    ((orderedServices cat s).find? (serviceEligible cat s.used_combinations) =
        some r.service ∨
      ((orderedServices cat s).find? (serviceEligible cat s.used_combinations) =
          none ∧
        (orderedServices cat s).head? = some r.service)) := by
  refine ⟨orderedServices_eq_rotate cat s, ?_⟩
  unfold choose_service_and_variant at h
  dsimp only at h
  split at h
  · next r0 heq =>
    have hr : r0 = r := by injection h
    subst hr
    exact Or.inl (scanServices_eq_some_find cat e s.used_combinations hg _ 0 _ heq)
  · next heq =>
    right
    have hall := scanServices_eq_none cat e s.used_combinations hg _ 0 heq
    refine ⟨?_, ?_⟩
    · rw [List.find?_eq_none]
      intro sv hsv
      simp [hall sv hsv]
    · split at h
      · cases h
      · next sv rest hord =>
        rw [hord]
        repeat' split at h
        all_goals first
          | (injection h with h'; subst h'; rfl)
          | cases h

/-- Witness for the amended C9 at a concrete catalog and state. -/
theorem claim_C9_witness :
    orderedServices cat1 defaultDState =
      cat1.SERVICE_KEYS.rotate
        ((defaultDState.last_service_index % (cat1.SERVICE_KEYS.length : Int)).toNat) ∧
    ((orderedServices cat1 defaultDState).find?
        (serviceEligible cat1 defaultDState.used_combinations) =
        some "Bespoke Suits" ∨
      ((orderedServices cat1 defaultDState).find?
          (serviceEligible cat1 defaultDState.used_combinations) = none ∧
        (orderedServices cat1 defaultDState).head? = some "Bespoke Suits")) :=
  claim_C9_amended cat1 idShuffles defaultDState
    { service := "Bespoke Suits", path := "images/services/suit.jpg",
      variant := "none", style := "none", color_name := "classic",
      color_filter := "", theme := "craftsmanship" }
    goodShuffles_id (by decide)

end AurumDaily

namespace AurumVideo

/-- Counterexample to C9 as stated: in `choose_service_and_style` of
`automation-video/main.py` the chosen category is not derived from any
stored index — with the persisted state completely fixed, changing only the
random draw changes the chosen category (first conjunct), while changing
the persisted sequence fields with the draw fixed changes nothing (second
conjunct): the category is a pure random draw over the eligible services,
with no deterministic starting point. -/
theorem claim_C9_counterexample :
    (choose_service_and_style bucketsAB get_default_state 0 0 0).1 ≠
      (choose_service_and_style bucketsAB get_default_state 1 0 0).1 ∧
    (choose_service_and_style bucketsAB
        { get_default_state with last_slno := some 500, last_rotation := some 7 }
        0 0 0).1 =
      (choose_service_and_style bucketsAB get_default_state 0 0 0).1 := by
  decide

/-- C7: `load_state` of `automation-video/main.py` returns the full default
state for a missing file, but the bare empty dict for a corrupt file, and
the invocation then does not behave like a first run: with every external
step succeeding, the corrupt-state run sends the video to Telegram and then
fails (`KeyError` on the absent `used_videos` key), returning failure and
saving nothing, whereas the genuine first run succeeds and saves — the
daily script's `load_state`, by contrast, recovers a corrupt file to the
full defaults. -/
theorem claim_C7_corrupt_state_bug :
    load_state FileStatus.missing = get_default_state ∧
    load_state FileStatus.corrupt ≠ get_default_state ∧
    AurumDaily.load_state AurumDaily.DFileStatus.corrupt = AurumDaily.defaultDState ∧
    (run bucketsAB 0 okEnv (load_state FileStatus.corrupt)).sent = true ∧
    (run bucketsAB 0 okEnv (load_state FileStatus.corrupt)).ok = false ∧
    (run bucketsAB 0 okEnv (load_state FileStatus.corrupt)).saved = false ∧
    (run bucketsAB 0 okEnv (load_state FileStatus.missing)).ok = true ∧
    (run bucketsAB 0 okEnv (load_state FileStatus.missing)).saved = true := by
  decide

end AurumVideo

namespace Fs

/-- Counterexample to C8 as stated: `save_state` of
`automation/generate_and_send_daily.py` does not follow the
write-temporary-then-rename discipline — its trace opens the state file
directly for writing with no rename at all. -/
theorem claim_C8_counterexample :
    atomicReplace (save_state_daily_ops "{}") DAILY_STATE_PATH = false := by
  decide

/-- C8 (amended): `save_state` of `automation-video/main.py` is atomic on
every call — it writes only a distinct temporary path and renames it over
the state file, and even its error path never opens the state file — while
`save_state` of `automation/generate_and_send_daily.py` writes the state
file directly on every call. -/
theorem claim_C8_amended (content : String) :
    atomicReplace (save_state_video_ops content false) VIDEO_STATE_PATH = true ∧
    writesDirectly (save_state_video_ops content true) VIDEO_STATE_PATH = false ∧
    writesDirectly (save_state_daily_ops content) DAILY_STATE_PATH = true := by
  refine ⟨?_, ?_, ?_⟩ <;>
    simp [atomicReplace, writesDirectly, save_state_video_ops,
      save_state_daily_ops, isRenameTo, VIDEO_STATE_PATH, VIDEO_TEMP_STATE_PATH,
      DAILY_STATE_PATH]

end Fs
